import Mathlib

/-!
Shallow embedding of the SimTradeData incremental-sync core
(gap detector, batch writer, validator, sync manager planning pass),
translated from `src/simtradedata/`. Dates are modelled by their
proleptic ordinal (`Nat`): Python `date + timedelta(days=1)` is `+ 1`
and `(d2 - d1).days` is integer subtraction.
-/

namespace SimTradeData

/-! ## Gap detector (`simtradedata/sync/gap_detector.py`) -/

/-- One gap dict produced by `GapDetector._detect_date_gaps`. -/
structure Gap where
  symbol : String
  frequency : String
  gap_type : String
  start_date : Nat
  end_date : Nat
  gap_days : Int
  severity : String
  deriving Repr, DecidableEq

/-- `GapDetector._calculate_gap_severity` (gap_detector.py:554-565):
`gap_days = (end_date - start_date).days + 1`, thresholds `<=1 / <=3 / <=7 / else`. -/
def calculateGapSeverity (start_date end_date : Nat) : String :=
  let gap_days : Int := (end_date : Int) - (start_date : Int) + 1
  if gap_days ≤ 1 then "low"
  else if gap_days ≤ 3 then "medium"
  else if gap_days ≤ 7 then "high"
  else "critical"

/-- The gap dict appended by `_detect_date_gaps` when a gap
`[current_gap_start, current_gap_end]` is closed (gap_detector.py:451-464). -/
def mkGap (symbol frequency : String) (s e : Nat) : Gap :=
  { symbol := symbol
    frequency := frequency
    gap_type := "date_missing"
    start_date := s
    end_date := e
    gap_days := (e : Int) - (s : Int) + 1
    severity := calculateGapSeverity s e }

/-- The merging loop of `_detect_date_gaps` (gap_detector.py:442-484), after the
first missing date has initialised `current_gap_start = current_gap_end`.
The state `(s, e)` is `(current_gap_start, current_gap_end)`; the final
gap is always appended once the list is exhausted. -/
def mergeLoop (symbol frequency : String) : List Nat → Nat → Nat → List Gap
  | [], s, e => [mkGap symbol frequency s e]
  | d :: rest, s, e =>
    if d = e + 1 then mergeLoop symbol frequency rest s d
    else mkGap symbol frequency s e :: mergeLoop symbol frequency rest d d

/-- `GapDetector._detect_date_gaps` (gap_detector.py:416-486): filter the
trading days missing from `existing_dates` (a membership test against the
set built at line 427), sort them ascending, and merge calendar-adjacent
runs into gaps. -/
def detectDateGaps (symbol : String) (tradingDays existingDates : List Nat)
    (frequency : String) : List Gap :=
  let missingDates := tradingDays.filter (fun d => decide (d ∉ existingDates))
  match (missingDates.insertionSort (· ≤ ·)) with
  | [] => []
  | d :: rest => mergeLoop symbol frequency rest d d

/-- A date is a missing trading day with respect to the inputs of
`_detect_date_gaps`: a trading day absent from `existing_dates`. -/
def missingDay (tradingDays existingDates : List Nat) (d : Nat) : Prop :=
  d ∈ tradingDays ∧ d ∉ existingDates

/-- Interval-shape of one produced gap: its endpoints are ordered, its
derived fields are consistent with the endpoints, and every date inside
the closed interval satisfies `P`. -/
def gapInterval (P : Nat → Prop) (g : Gap) : Prop :=
  g.start_date ≤ g.end_date ∧
  g.gap_days = (g.end_date : Int) - (g.start_date : Int) + 1 ∧
  g.severity = calculateGapSeverity g.start_date g.end_date ∧
  ∀ d : Nat, g.start_date ≤ d → d ≤ g.end_date → P d

/-- Full structural well-formedness of one gap produced from
`tradingDays` / `existingDates`. -/
def gapWellFormed (tradingDays existingDates : List Nat) (g : Gap) : Prop :=
  g.start_date ≤ g.end_date ∧
  g.gap_days = (g.end_date : Int) - (g.start_date : Int) + 1 ∧
  1 ≤ g.gap_days ∧
  g.severity = calculateGapSeverity g.start_date g.end_date ∧
  ∀ d : Nat, g.start_date ≤ d → d ≤ g.end_date →
    missingDay tradingDays existingDates d

/-- Loop invariant of the gap-merging loop: starting from an open gap
`[s, e]` whose interval satisfies `P`, on a strictly sorted remainder all
above `e` and all satisfying `P`, every produced gap is a `P`-interval
starting no earlier than `s`, and consecutive produced gaps are separated
by at least two calendar days. -/
lemma mergeLoop_spec (sym freq : String) (P : Nat → Prop) (l : List Nat) :
    ∀ s e : Nat, s ≤ e → (∀ d, s ≤ d → d ≤ e → P d) →
      l.Pairwise (· < ·) → (∀ x ∈ l, e < x) → (∀ x ∈ l, P x) →
      (∀ g ∈ mergeLoop sym freq l s e, gapInterval P g ∧ s ≤ g.start_date) ∧
      (mergeLoop sym freq l s e).Pairwise
        (fun a b => a.end_date + 2 ≤ b.start_date) := by
  induction l with
  | nil =>
    intro s e hse hP _ _ _
    constructor
    · intro g hg
      simp only [mergeLoop, List.mem_singleton] at hg
      subst hg
      exact ⟨⟨hse, rfl, rfl, hP⟩, le_refl _⟩
    · simp [mergeLoop]
  | cons d rest ih =>
    intro s e hse hP hsorted hgt hPl
    have hde : e < d := hgt d (List.mem_cons_self _ _)
    have hPd : P d := hPl d (List.mem_cons_self _ _)
    have hrest_sorted : rest.Pairwise (· < ·) := hsorted.of_cons
    have hdrest : ∀ x ∈ rest, d < x := fun x hx =>
      List.rel_of_pairwise_cons hsorted hx
    have hPrest : ∀ x ∈ rest, P x := fun x hx =>
      hPl x (List.mem_cons_of_mem _ hx)
    by_cases hadj : d = e + 1
    · have heq : mergeLoop sym freq (d :: rest) s e = mergeLoop sym freq rest s d := by
        simp [mergeLoop, hadj]
      rw [heq]
      refine ih s d (by omega) ?_ hrest_sorted hdrest hPrest
      intro x hsx hxd
      rcases Nat.lt_or_ge x d with h | h
      · exact hP x hsx (by omega)
      · have hxeq : x = d := by omega
        exact hxeq ▸ hPd
    · have hsep : e + 2 ≤ d := by omega
      have heq : mergeLoop sym freq (d :: rest) s e =
          mkGap sym freq s e :: mergeLoop sym freq rest d d := by
        simp [mergeLoop, hadj]
      rw [heq]
      obtain ⟨ihA, ihB⟩ := ih d d (le_refl d)
        (fun x h1 h2 => by
          have hxeq : x = d := by omega
          exact hxeq ▸ hPd)
        hrest_sorted hdrest hPrest
      constructor
      · intro g hg
        rcases List.mem_cons.mp hg with rfl | hg'
        · exact ⟨⟨hse, rfl, rfl, hP⟩, le_refl _⟩
        · obtain ⟨hgi, hgs⟩ := ihA g hg'
          exact ⟨hgi, by omega⟩
      · refine List.Pairwise.cons ?_ ihB
        intro g hg
        have hds : d ≤ g.start_date := (ihA g hg).2
        show (mkGap sym freq s e).end_date + 2 ≤ g.start_date
        simp only [mkGap]
        omega

/-- Claim C3: `_detect_date_gaps` merges sorted missing trading days by
calendar-day adjacency — a missing date extends the current gap exactly
when it is one calendar day after the gap's end, otherwise the gap is
closed and a new one starts; for trading days Mon..Fri with existing
dates {Mon, Fri} the result is one gap Tue..Thu with `gap_days` 3 and
severity "medium", and with all five dates existing it is empty. -/
theorem gap_merge_calendar_adjacency :
    (∀ (sym freq : String) (rest : List Nat) (s e d : Nat),
        mergeLoop sym freq (d :: rest) s e =
          if d = e + 1 then mergeLoop sym freq rest s d
          else mkGap sym freq s e :: mergeLoop sym freq rest d d) ∧
    detectDateGaps "600000.SH" [100, 101, 102, 103, 104] [100, 104] "1d" =
      [{ symbol := "600000.SH", frequency := "1d", gap_type := "date_missing",
         start_date := 101, end_date := 103, gap_days := 3,
         severity := "medium" }] ∧
    detectDateGaps "600000.SH" [100, 101, 102, 103, 104]
      [100, 101, 102, 103, 104] "1d" = [] := by
  refine ⟨fun sym freq rest s e d => rfl, by decide, by decide⟩

/-- Claim C8: `_calculate_gap_severity` maps a gap of length
`end - start + 1` calendar days to "low" when the length is 1, "medium"
for 2–3, "high" for 4–7 and "critical" above 7; in particular lengths
1, 3, 7, 8 map to "low", "medium", "high", "critical". -/
theorem gap_severity_thresholds (s e : Nat) (h : s ≤ e) :
    (e - s + 1 = 1 → calculateGapSeverity s e = "low") ∧
    (2 ≤ e - s + 1 → e - s + 1 ≤ 3 → calculateGapSeverity s e = "medium") ∧
    (4 ≤ e - s + 1 → e - s + 1 ≤ 7 → calculateGapSeverity s e = "high") ∧
    (7 < e - s + 1 → calculateGapSeverity s e = "critical") ∧
    calculateGapSeverity 10 10 = "low" ∧
    calculateGapSeverity 10 12 = "medium" ∧
    calculateGapSeverity 10 16 = "high" ∧
    calculateGapSeverity 10 17 = "critical" := by
  refine ⟨?_, ?_, ?_, ?_, by decide, by decide, by decide, by decide⟩ <;>
    · intros
      simp only [calculateGapSeverity]
      split_ifs <;> first | rfl | omega

/-- Witness for C8 at a concrete gap of length 3. -/
theorem gap_severity_thresholds_witness :
    calculateGapSeverity 10 12 = "medium" :=
  (gap_severity_thresholds 10 12 (by decide)).2.1 (by decide) (by decide)

/-- Claim C10: under the data-model invariant that the trading-day list
has no duplicates, every gap list produced by `_detect_date_gaps` has
ordered, pairwise-disjoint gaps with consecutive gaps at least two
calendar days apart, and each gap has `start ≤ end`,
`gap_days = end - start + 1 ≥ 1`, severity computed by
`_calculate_gap_severity`, and every date in `[start, end]` a missing
trading day. -/
theorem detect_date_gaps_structural_invariant (sym freq : String)
    (tradingDays existingDates : List Nat) (hnd : tradingDays.Nodup) :
    (∀ g ∈ detectDateGaps sym tradingDays existingDates freq,
        gapWellFormed tradingDays existingDates g) ∧
    (detectDateGaps sym tradingDays existingDates freq).Pairwise
      (fun a b => a.end_date + 2 ≤ b.start_date) := by
  have hmem : ∀ x ∈ (tradingDays.filter
        (fun d => decide (d ∉ existingDates))).insertionSort (· ≤ ·),
      missingDay tradingDays existingDates x := by
    intro x hx
    have hx' := (List.perm_insertionSort (· ≤ ·) _).mem_iff.mp hx
    have hx2 := List.mem_filter.mp hx'
    exact ⟨hx2.1, by simpa using hx2.2⟩
  have hlt : ((tradingDays.filter
        (fun d => decide (d ∉ existingDates))).insertionSort (· ≤ ·)).Pairwise
      (· < ·) := by
    have hs := List.sorted_insertionSort (· ≤ ·)
      (tradingDays.filter (fun d => decide (d ∉ existingDates)))
    have hn := ((List.perm_insertionSort (· ≤ ·)
      (tradingDays.filter (fun d => decide (d ∉ existingDates)))).nodup_iff).mpr
      (hnd.filter _)
    exact hs.lt_of_le hn
  cases hcase : (tradingDays.filter
      (fun d => decide (d ∉ existingDates))).insertionSort (· ≤ ·) with
  | nil =>
    have hrepr : detectDateGaps sym tradingDays existingDates freq = [] := by
      simp only [detectDateGaps]
      rw [hcase]
    rw [hrepr]
    constructor <;> simp
  | cons d rest =>
    have hrepr : detectDateGaps sym tradingDays existingDates freq =
        mergeLoop sym freq rest d d := by
      simp only [detectDateGaps]
      rw [hcase]
    rw [hcase] at hmem hlt
    obtain ⟨hA, hB⟩ := mergeLoop_spec sym freq
      (missingDay tradingDays existingDates) rest d d (le_refl d)
      (fun x h1 h2 => by
        have hxeq : x = d := le_antisymm h2 h1
        exact hxeq ▸ hmem d (List.mem_cons_self _ _))
      hlt.of_cons
      (fun x hx => List.rel_of_pairwise_cons hlt hx)
      (fun x hx => hmem x (List.mem_cons_of_mem _ hx))
    rw [hrepr]
    refine ⟨?_, hB⟩
    intro g hg
    obtain ⟨⟨h1, h2, h3, h4⟩, _⟩ := hA g hg
    refine ⟨h1, h2, ?_, h3, h4⟩
    rw [h2]
    omega

/-- Witness for C10 on a concrete trading calendar with two single-day
missing runs. -/
theorem detect_date_gaps_structural_invariant_witness :
    (detectDateGaps "000001.SZ" [100, 101, 103] [101] "1d").Pairwise
      (fun a b => a.end_date + 2 ≤ b.start_date) :=
  (detect_date_gaps_structural_invariant "000001.SZ" "1d" [100, 101, 103] [101]
    (by decide)).2

/-! ## Batch writer (`simtradedata/database/batch_writer.py`) -/

/-- A SQL-storable scalar value. Python floats are modelled by `Rat`;
a `str` models non-numeric text (numeric columns come back numeric). -/
inductive Val where
  | int : Int → Val
  | num : Rat → Val
  | str : String → Val
  | null : Val
  deriving Repr, DecidableEq

/-- A Python dict record: an ordered association list of column/value
pairs (dict insertion order; keys are distinct in an actual dict). -/
abbrev Record := List (String × Val)

/-- `record[col]`: first-match lookup. `none` models a `KeyError`. -/
def lookupCol (r : Record) (c : String) : Option Val :=
  (r.find? (fun p => decide (p.1 = c))).map Prod.snd

/-- `tuple(record[col] for col in columns)` for one record; `none`
models the `KeyError` raised when the record lacks one of the columns. -/
def tupleOfRecord (r : Record) : List String → Option (List Val)
  | [] => some []
  | c :: cs =>
    match lookupCol r c, tupleOfRecord r cs with
    | some v, some vs => some (v :: vs)
    | _, _ => none

/-- `params_list = [tuple(record[col] for col in columns) for record in records]`
(batch_writer.py:129). `none` models the `KeyError` raised when some
record lacks one of the first record's columns. -/
def buildParams (columns : List String) : List Record → Option (List (List Val))
  | [] => some []
  | r :: rs =>
    match tupleOfRecord r columns, buildParams columns rs with
    | some t, some ts => some (t :: ts)
    | _, _ => none

/-- One destination table of the relational store: its declared primary
key and its current rows. -/
structure TableData where
  pk : List String
  rows : List Record
  deriving Repr, DecidableEq

/-- The relational store, tables by name. -/
abbrev Store := List (String × TableData)

/-- Look a table up in the store; `none` models a missing-table SQL error. -/
def lookupTable (st : Store) (t : String) : Option TableData :=
  (st.find? (fun p => decide (p.1 = t))).map Prod.snd

/-- Replace the rows of table `t` in the store. -/
def setTableRows (st : Store) (t : String) (rows : List Record) : Store :=
  st.map (fun p => if p.1 = t then (p.1, { p.2 with rows := rows }) else p)

/-- Primary-key projection of a row. -/
def pkOf (pk : List String) (r : Record) : List (Option Val) :=
  pk.map (lookupCol r)

/-- `INSERT OR REPLACE` of one row: any existing row with the same
primary-key projection is removed and the new row inserted. -/
def upsertRow (pk : List String) (rows : List Record) (newRow : Record) :
    List Record :=
  rows.filter (fun r => decide (pkOf pk r ≠ pkOf pk newRow)) ++ [newRow]

/-- In-memory state of a `BatchWriter`: configuration, the per-table
buffer (`defaultdict(list)`, insertion-ordered), and the statistics
counters of `self._stats`. -/
structure WriterState where
  batchSize : Nat
  autoFlush : Bool
  buffer : List (String × List Record)
  totalRecords : Nat
  totalBatches : Nat
  failedBatches : Nat
  deriving Repr, DecidableEq

/-- `BatchWriter.__init__` (batch_writer.py:31-58): empty buffer, zeroed
statistics. -/
def initWriter (batchSize : Nat) (autoFlush : Bool) : WriterState :=
  { batchSize := batchSize, autoFlush := autoFlush, buffer := []
    totalRecords := 0, totalBatches := 0, failedBatches := 0 }

/-- The buffered record list of one table, `none` when the key is absent. -/
def lookupBuffer (w : WriterState) (t : String) : Option (List Record) :=
  (w.buffer.find? (fun p => decide (p.1 = t))).map Prod.snd

/-- `self._buffer[table].append(data)` under `defaultdict(list)`
semantics: extend the table's list, creating the key at the end when
absent. -/
def bufferAppend : List (String × List Record) → String → Record →
    List (String × List Record)
  | [], t, r => [(t, [r])]
  | p :: ps, t, r =>
    if p.1 = t then (p.1, p.2 ++ [r]) :: ps else p :: bufferAppend ps t r

/-- `BatchWriter.flush(table)` for a named table (batch_writer.py:91-153):
empty or absent buffer returns 0; otherwise the column list is taken from
the first buffered record, the parameter list is built (a `KeyError`
here, or a missing destination table, takes the failure path: the
failed-batch counter is incremented, the buffer is preserved and the
exception is re-raised, modelled as `.error ()`); on success every
record is upserted in insertion order inside one transaction, the
statistics are updated and the table's buffer is cleared. -/
def flush (w : WriterState) (store : Store) (t : String) :
    WriterState × Store × Except Unit Nat :=
  match lookupBuffer w t with
  | none => (w, store, .ok 0)
  | some [] => (w, store, .ok 0)
  | some (r0 :: rest) =>
    let records := r0 :: rest
    let columns := r0.map Prod.fst
    match buildParams columns records with
    | none => ({ w with failedBatches := w.failedBatches + 1 }, store, .error ())
    | some paramsList =>
      match lookupTable store t with
      | none => ({ w with failedBatches := w.failedBatches + 1 }, store, .error ())
      | some td =>
        let newRows := paramsList.foldl
          (fun rows ps => upsertRow td.pk rows (columns.zip ps)) td.rows
        ({ w with
            totalRecords := w.totalRecords + records.length
            totalBatches := w.totalBatches + 1
            buffer := w.buffer.map (fun p => if p.1 = t then (p.1, []) else p) },
          setTableRows store t newRows,
          .ok records.length)

/-- The loop body of `BatchWriter.flush_all` (batch_writer.py:155-180):
each table is flushed independently; an exception is caught, recorded as
zero flushed rows for that table, and iteration continues. -/
def flushAllGo (w : WriterState) (store : Store) :
    List String → List (String × Nat) → WriterState × Store × List (String × Nat)
  | [], acc => (w, store, acc)
  | t :: ts, acc =>
    match flush w store t with
    | (w', store', .ok n) => flushAllGo w' store' ts (acc ++ [(t, n)])
    | (w', store', .error _) => flushAllGo w' store' ts (acc ++ [(t, 0)])

/-- `BatchWriter.flush_all()`: iterate over a snapshot of the buffered
table names; never raises. -/
def flushAll (w : WriterState) (store : Store) :
    WriterState × Store × List (String × Nat) :=
  flushAllGo w store (w.buffer.map Prod.fst) []

/-- `BatchWriter.add_record` (batch_writer.py:60-89): an empty table name
raises (`.error ()`); otherwise the record is appended to the table's
buffer and, when `auto_flush` is on and the buffer has reached
`batch_size`, the table is flushed immediately and 0 is returned (a
flush exception propagates); otherwise the new buffered count is
returned. -/
def addRecord (w : WriterState) (store : Store) (t : String) (r : Record) :
    WriterState × Store × Except Unit Nat :=
  if t = "" then (w, store, .error ())
  else
    let w1 := { w with buffer := bufferAppend w.buffer t r }
    let bufferSize := ((lookupBuffer w1 t).getD []).length
    if w.autoFlush = true ∧ w.batchSize ≤ bufferSize then
      match flush w1 store t with
      | (w2, store2, .ok _) => (w2, store2, .ok 0)
      | (w2, store2, .error e) => (w2, store2, .error e)
    else (w1, store, .ok bufferSize)

lemma find?_bufferAppend (buf : List (String × List Record)) (t : String)
    (r : Record) :
    ((bufferAppend buf t r).find? (fun p => decide (p.1 = t))).map Prod.snd =
      some ((((buf.find? (fun p => decide (p.1 = t))).map Prod.snd).getD []) ++ [r]) := by
  induction buf with
  | nil => simp [bufferAppend]
  | cons p ps ih =>
    by_cases hpt : p.1 = t
    · simp [bufferAppend, hpt, List.find?_cons]
    · simp [bufferAppend, hpt, List.find?_cons, ih]

lemma lookupBuffer_bufferAppend (w : WriterState) (t : String) (r : Record) :
    lookupBuffer { w with buffer := bufferAppend w.buffer t r } t =
      some ((lookupBuffer w t).getD [] ++ [r]) := by
  simp only [lookupBuffer]
  exact find?_bufferAppend w.buffer t r

lemma tupleOfRecord_cons_notMem (k : String) (v : Val) (ps : Record)
    (cs : List String) (h : k ∉ cs) :
    tupleOfRecord ((k, v) :: ps) cs = tupleOfRecord ps cs := by
  induction cs with
  | nil => rfl
  | cons c cs ih =>
    have hkc : k ≠ c := fun he => h (he ▸ List.mem_cons_self _ _)
    have hcs : k ∉ cs := fun hm => h (List.mem_cons_of_mem _ hm)
    simp [tupleOfRecord, lookupCol, List.find?_cons, hkc, ih hcs]

/-- A record with distinct keys reproduces its own values under its own
column list. -/
lemma tupleOfRecord_self (r : Record) (hnd : (r.map Prod.fst).Nodup) :
    tupleOfRecord r (r.map Prod.fst) = some (r.map Prod.snd) := by
  induction r with
  | nil => rfl
  | cons p ps ih =>
    obtain ⟨k, v⟩ := p
    simp only [List.map_cons] at hnd ⊢
    obtain ⟨hk, hnd'⟩ := List.nodup_cons.mp hnd
    rw [tupleOfRecord]
    have h1 : lookupCol ((k, v) :: ps) k = some v := by
      simp [lookupCol, List.find?_cons]
    rw [h1, tupleOfRecord_cons_notMem k v ps _ hk, ih hnd']

lemma zip_fst_snd (r : Record) : (r.map Prod.fst).zip (r.map Prod.snd) = r := by
  induction r with
  | nil => rfl
  | cons p ps ih => simp [ih]

/-- Upserting a row leaves exactly one stored row with that row's
primary-key projection: the row itself. -/
lemma filter_upsertRow (pk : List String) (X : List Record) (r : Record) :
    (upsertRow pk X r).filter (fun q => decide (pkOf pk q = pkOf pk r)) = [r] := by
  unfold upsertRow
  induction X with
  | nil => simp
  | cons x xs ih =>
    by_cases h : pkOf pk x = pkOf pk r
    · rw [show (x :: xs).filter (fun q => decide (pkOf pk q ≠ pkOf pk r)) =
          xs.filter (fun q => decide (pkOf pk q ≠ pkOf pk r)) by simp [h]]
      exact ih
    · rw [show (x :: xs).filter (fun q => decide (pkOf pk q ≠ pkOf pk r)) =
          x :: xs.filter (fun q => decide (pkOf pk q ≠ pkOf pk r)) by simp [h]]
      rw [List.cons_append]
      rw [show (x :: (xs.filter (fun q => decide (pkOf pk q ≠ pkOf pk r)) ++ [r])).filter
            (fun q => decide (pkOf pk q = pkOf pk r)) =
          (xs.filter (fun q => decide (pkOf pk q ≠ pkOf pk r)) ++ [r]).filter
            (fun q => decide (pkOf pk q = pkOf pk r)) by simp [h]]
      exact ih

lemma lookupTable_setTableRows_ne (st : Store) (t t' : String)
    (rows : List Record) (h : t' ≠ t) :
    lookupTable (setTableRows st t rows) t' = lookupTable st t' := by
  unfold lookupTable setTableRows
  rw [List.find?_map]
  have hpred : ((fun p : String × TableData => decide (p.1 = t')) ∘
      (fun p => if p.1 = t then (p.1, { p.2 with rows := rows }) else p)) =
      (fun p : String × TableData => decide (p.1 = t')) := by
    funext a
    by_cases ha : a.1 = t <;> simp [ha]
  rw [hpred]
  cases hfind : st.find? (fun p : String × TableData => decide (p.1 = t')) with
  | none => simp
  | some a =>
    have ha' : a.1 = t' := of_decide_eq_true
      (List.find?_some (p := fun p : String × TableData => decide (p.1 = t')) hfind)
    have hne : ¬a.1 = t := fun he => h (by rw [← ha', he])
    simp [hne]

/-- Claim C5: upsert idempotence / last-write-wins. For every table with
a declared primary key, adding and flushing a record, then adding and
flushing a second record with the same key, leaves exactly one stored
row for that key, carrying the second record's values. -/
theorem upsert_last_write_wins (bs : Nat) (t : String) (pk : List String)
    (rows0 : List Record) (r1 r2 : Record) (store0 : Store)
    (s1 s2 s3 s4 : WriterState × Store × Except Unit Nat)
    (ht : t ≠ "")
    (hnd1 : (r1.map Prod.fst).Nodup) (hnd2 : (r2.map Prod.fst).Nodup)
    (hkey : pkOf pk r1 = pkOf pk r2)
    (hstore : store0 = [(t, { pk := pk, rows := rows0 })])
    (h1 : s1 = addRecord (initWriter bs false) store0 t r1)
    (h2 : s2 = flush s1.1 s1.2.1 t)
    (h3 : s3 = addRecord s2.1 s2.2.1 t r2)
    (h4 : s4 = flush s3.1 s3.2.1 t) :
    (((lookupTable s4.2.1 t).map TableData.rows).getD []).filter
        (fun q => decide (pkOf pk q = pkOf pk r1)) = [r2] := by
  subst hstore h1 h2 h3 h4
  have hs1 : addRecord (initWriter bs false) [(t, { pk := pk, rows := rows0 })] t r1 =
      ({ initWriter bs false with buffer := [(t, [r1])] },
        [(t, { pk := pk, rows := rows0 })], .ok 1) := by
    simp [addRecord, initWriter, ht, bufferAppend, lookupBuffer, List.find?_cons]
  simp only [hs1]
  have hs2 : flush { initWriter bs false with buffer := [(t, [r1])] }
      [(t, { pk := pk, rows := rows0 })] t =
      ({ initWriter bs false with
          buffer := [(t, [])], totalRecords := 1, totalBatches := 1 },
        [(t, { pk := pk, rows := upsertRow pk rows0 r1 })], .ok 1) := by
    simp only [flush, lookupBuffer, List.find?_cons, decide_eq_true_eq]
    simp [buildParams, tupleOfRecord_self r1 hnd1, lookupTable, setTableRows,
      List.find?_cons, zip_fst_snd, initWriter]
  simp only [hs2]
  have hs3 : addRecord { initWriter bs false with
        buffer := [(t, [])], totalRecords := 1, totalBatches := 1 }
      [(t, { pk := pk, rows := upsertRow pk rows0 r1 })] t r2 =
      ({ initWriter bs false with
          buffer := [(t, [r2])], totalRecords := 1, totalBatches := 1 },
        [(t, { pk := pk, rows := upsertRow pk rows0 r1 })], .ok 1) := by
    simp [addRecord, initWriter, ht, bufferAppend, lookupBuffer, List.find?_cons]
  simp only [hs3]
  have hs4 : flush { initWriter bs false with
        buffer := [(t, [r2])], totalRecords := 1, totalBatches := 1 }
      [(t, { pk := pk, rows := upsertRow pk rows0 r1 })] t =
      ({ initWriter bs false with
          buffer := [(t, [])], totalRecords := 2, totalBatches := 2 },
        [(t, { pk := pk, rows := upsertRow pk (upsertRow pk rows0 r1) r2 })],
        .ok 1) := by
    simp only [flush, lookupBuffer, List.find?_cons, decide_eq_true_eq]
    simp [buildParams, tupleOfRecord_self r2 hnd2, lookupTable, setTableRows,
      List.find?_cons, zip_fst_snd, initWriter]
  simp only [hs4]
  simp only [lookupTable, List.find?_cons]
  rw [hkey]
  simpa using filter_upsertRow pk (upsertRow pk rows0 r1) r2

/-- Claim C7: with `batch_size=3` and `auto_flush=True`, the first two
`add_record` calls return 1 and 2, keep the buffer non-empty and perform
no store write; the third triggers an immediate flush, returns 0 and
clears the buffer. In general `add_record` returns the buffered count
and, below the threshold, touches neither the store nor statistics. -/
theorem add_record_auto_flush_threshold (t : String) (r1 r2 r3 : Record)
    (store0 : Store) (td : TableData) (ps : List (List Val))
    (s1 s2 s3 : WriterState × Store × Except Unit Nat)
    (ht : t ≠ "")
    (htbl : lookupTable store0 t = some td)
    (hps : buildParams (r1.map Prod.fst) [r1, r2, r3] = some ps)
    (h1 : s1 = addRecord (initWriter 3 true) store0 t r1)
    (h2 : s2 = addRecord s1.1 s1.2.1 t r2)
    (h3 : s3 = addRecord s2.1 s2.2.1 t r3) :
    (s1.2.2 = .ok 1 ∧ s1.2.1 = store0 ∧ lookupBuffer s1.1 t = some [r1]) ∧
    (s2.2.2 = .ok 2 ∧ s2.2.1 = store0 ∧ lookupBuffer s2.1 t = some [r1, r2]) ∧
    (s3.2.2 = .ok 0 ∧ lookupBuffer s3.1 t = some [] ∧
      s3.2.1 = setTableRows store0 t
        (ps.foldl (fun rows p => upsertRow td.pk rows ((r1.map Prod.fst).zip p))
          td.rows) ∧
      s3.1.totalBatches = 1) ∧
    (∀ (w : WriterState) (st : Store) (tb : String) (r : Record),
        tb ≠ "" →
        (w.autoFlush = true → ((lookupBuffer w tb).getD []).length + 1 < w.batchSize) →
        addRecord w st tb r =
          ({ w with buffer := bufferAppend w.buffer tb r }, st,
            .ok (((lookupBuffer w tb).getD []).length + 1))) := by
  subst h1 h2 h3
  have e1 : addRecord (initWriter 3 true) store0 t r1 =
      ({ initWriter 3 true with buffer := [(t, [r1])] }, store0, .ok 1) := by
    simp [addRecord, initWriter, ht, bufferAppend, lookupBuffer, List.find?_cons]
  have e2 : addRecord { initWriter 3 true with buffer := [(t, [r1])] } store0 t r2 =
      ({ initWriter 3 true with buffer := [(t, [r1, r2])] }, store0, .ok 2) := by
    simp [addRecord, initWriter, ht, bufferAppend, lookupBuffer, List.find?_cons]
  have e3 : addRecord { initWriter 3 true with buffer := [(t, [r1, r2])] }
      store0 t r3 =
      ({ initWriter 3 true with
          buffer := [(t, [])], totalRecords := 3, totalBatches := 1 },
        setTableRows store0 t
          (ps.foldl (fun rows p => upsertRow td.pk rows ((r1.map Prod.fst).zip p))
            td.rows),
        .ok 0) := by
    simp [addRecord, initWriter, ht, bufferAppend, lookupBuffer, List.find?_cons,
      flush, hps, htbl]
  refine ⟨?_, ?_, ?_, ?_⟩
  · simp only [e1]
    simp [lookupBuffer, List.find?_cons]
  · simp only [e1, e2]
    simp [lookupBuffer, List.find?_cons]
  · simp only [e1, e2, e3]
    simp [lookupBuffer, List.find?_cons]
  · intro w st tb r htb hlt
    have hcond : ¬(w.autoFlush = true ∧
        w.batchSize ≤ ((lookupBuffer w tb).getD []).length + 1) := by
      rintro ⟨ha, hb⟩
      have := hlt ha
      omega
    simp only [addRecord, if_neg htb, lookupBuffer_bufferAppend, Option.getD_some,
      List.length_append, List.length_singleton, if_neg hcond]

/-- Claim C2: per-table isolation of `flush_all`. When table A's flush
fails (its state and buffer are left as the failure path leaves them)
while table B's buffer is well-formed, `flush_all` returns A ↦ 0 and
B ↦ B's full count, preserves A's buffer for retry, counts the failure,
flushes all of B's records, and leaves A's stored rows untouched. -/
theorem flush_all_per_table_isolation
    (A B : String) (bs : Nat) (af : Bool) (tr tb fb : Nat)
    (recsA : List Record) (b0 : Record) (brest : List Record)
    (store0 : Store) (tdB : TableData) (psB : List (List Val))
    (w0 : WriterState) (res : WriterState × Store × List (String × Nat))
    (hAB : A ≠ B)
    (hw0 : w0 = { batchSize := bs, autoFlush := af,
                  buffer := [(A, recsA), (B, b0 :: brest)], totalRecords := tr,
                  totalBatches := tb, failedBatches := fb })
    (hfailA : flush w0 store0 A =
      ({ w0 with failedBatches := w0.failedBatches + 1 }, store0, .error ()))
    (htblB : lookupTable store0 B = some tdB)
    (hpsB : buildParams (b0.map Prod.fst) (b0 :: brest) = some psB)
    (hres : res = flushAll w0 store0) :
    res.2.2 = [(A, 0), (B, (b0 :: brest).length)] ∧
    lookupBuffer res.1 A = some recsA ∧
    lookupBuffer res.1 B = some [] ∧
    res.1.failedBatches = fb + 1 ∧
    res.2.1 = setTableRows store0 B
      (psB.foldl (fun rows p => upsertRow tdB.pk rows ((b0.map Prod.fst).zip p))
        tdB.rows) ∧
    lookupTable res.2.1 A = lookupTable store0 A := by
  subst hres hw0
  have hBA : ¬B = A := fun he => hAB he.symm
  have hstep : flush ({ batchSize := bs
                        autoFlush := af
                        buffer := [(A, recsA), (B, b0 :: brest)]
                        totalRecords := tr
                        totalBatches := tb
                        failedBatches := fb + 1 } : WriterState) store0 B =
      (({ batchSize := bs
          autoFlush := af
          buffer := [(A, recsA), (B, [])]
          totalRecords := tr + (b0 :: brest).length
          totalBatches := tb + 1
          failedBatches := fb + 1 } : WriterState),
        setTableRows store0 B
          (psB.foldl (fun rows p => upsertRow tdB.pk rows ((b0.map Prod.fst).zip p))
            tdB.rows),
        .ok (b0 :: brest).length) := by
    simp [flush, lookupBuffer, List.find?_cons, hAB, hBA, hpsB, htblB]
  have hgo : flushAll ({ batchSize := bs
                         autoFlush := af
                         buffer := [(A, recsA), (B, b0 :: brest)]
                         totalRecords := tr
                         totalBatches := tb
                         failedBatches := fb } : WriterState) store0 =
      (({ batchSize := bs
          autoFlush := af
          buffer := [(A, recsA), (B, [])]
          totalRecords := tr + (b0 :: brest).length
          totalBatches := tb + 1
          failedBatches := fb + 1 } : WriterState),
        setTableRows store0 B
          (psB.foldl (fun rows p => upsertRow tdB.pk rows ((b0.map Prod.fst).zip p))
            tdB.rows),
        [(A, 0), (B, (b0 :: brest).length)]) := by
    simp only [flushAll, List.map_cons, List.map_nil, flushAllGo, hfailA, hstep]
    simp [flushAllGo]
  rw [hgo]
  refine ⟨rfl, ?_, ?_, rfl, rfl, ?_⟩
  · simp [lookupBuffer, List.find?_cons]
  · simp [lookupBuffer, List.find?_cons, hAB, hBA]
  · exact lookupTable_setTableRows_ne store0 B A _ hAB

/-- Concrete inputs used by the writer witnesses. -/
def c5r1 : Record := [("id", Val.int 1), ("name", Val.str "a")]

def c5r2 : Record := [("id", Val.int 1), ("name", Val.str "b")]

def c5store : Store := [("market_data", { pk := ["id"], rows := [] })]

def c5s1 := addRecord (initWriter 100 false) c5store "market_data" c5r1

def c5s2 := flush c5s1.1 c5s1.2.1 "market_data"

def c5s3 := addRecord c5s2.1 c5s2.2.1 "market_data" c5r2

def c5s4 := flush c5s3.1 c5s3.2.1 "market_data"

/-- Witness for C5: writing `id 1, name "a"`, flushing, then `id 1,
name "b"`, flushing, leaves exactly one row with that id, name "b". -/
theorem upsert_last_write_wins_witness :
    (((lookupTable c5s4.2.1 "market_data").map TableData.rows).getD []).filter
        (fun q => decide (pkOf ["id"] q = pkOf ["id"] c5r1)) = [c5r2] :=
  upsert_last_write_wins 100 "market_data" ["id"] [] c5r1 c5r2 c5store
    c5s1 c5s2 c5s3 c5s4 (by decide) (by decide) (by decide) (by decide)
    rfl rfl rfl rfl rfl

def c7r : Record := [("id", Val.int 7)]

def c7store : Store := [("technical_indicators", { pk := ["id"], rows := [] })]

def c7s1 := addRecord (initWriter 3 true) c7store "technical_indicators" c7r

def c7s2 := addRecord c7s1.1 c7s1.2.1 "technical_indicators" c7r

def c7s3 := addRecord c7s2.1 c7s2.2.1 "technical_indicators" c7r

/-- Witness for C7: with batch size 3 the three `add_record` calls
return 1, 2, 0. -/
theorem add_record_auto_flush_threshold_witness :
    c7s1.2.2 = .ok 1 ∧ c7s2.2.2 = .ok 2 ∧ c7s3.2.2 = .ok 0 :=
  have h := add_record_auto_flush_threshold "technical_indicators" c7r c7r c7r
    c7store ({ pk := ["id"], rows := [] }) [[Val.int 7], [Val.int 7], [Val.int 7]]
    c7s1 c7s2 c7s3 (by decide) (by decide) (by decide) rfl rfl rfl
  ⟨h.1.1, h.2.1.1, h.2.2.1.1⟩

def c2recsA : List Record := [[("id", Val.int 1)], [("wrong", Val.int 2)]]

def c2b0 : Record := [("id", Val.int 3)]

def c2store : Store := [("B", { pk := ["id"], rows := [] })]

def c2w0 : WriterState :=
  { batchSize := 10, autoFlush := true
    buffer := [("A", c2recsA), ("B", [c2b0])]
    totalRecords := 0, totalBatches := 0, failedBatches := 0 }

def c2res := flushAll c2w0 c2store

/-- Witness for C2: table A's second buffered record lacks the first
record's column, so A flushes 0 and keeps its buffer while B's record is
written. -/
theorem flush_all_per_table_isolation_witness :
    c2res.2.2 = [("A", 0), ("B", 1)] ∧
    lookupBuffer c2res.1 "A" = some c2recsA ∧
    lookupBuffer c2res.1 "B" = some [] ∧
    c2res.1.failedBatches = 1 :=
  have h := flush_all_per_table_isolation "A" "B" 10 true 0 0 0 c2recsA c2b0 []
    c2store ({ pk := ["id"], rows := [] }) [[Val.int 3]] c2w0 c2res
    (by decide) rfl rfl (by decide) (by decide) rfl
  ⟨h.1, h.2.1, h.2.2.1, h.2.2.2.1⟩

/-! ## Sync manager planning pass (`simtradedata/sync/manager.py`) -/

/-- One row of the `extended_sync_status` ledger. `ageDays` abstracts
`now() - created_at` in whole days. -/
structure LedgerRow where
  symbol : String
  sync_type : String
  target_date : String
  status : String
  ageDays : Nat
  deriving Repr, DecidableEq

/-- One row of `financials`; `ageDays` abstracts `now() - created_at`
for the `created_at > datetime('now', '-30 days')` filter. -/
structure FinRow where
  symbol : String
  report_date : String
  ageDays : Nat
  deriving Repr, DecidableEq

/-- The slice of the relational store consulted by
`_get_extended_data_symbols_to_process`: the ledger plus the three
authoritative extended-data tables (valuations and technical indicators
are only tested for the existence of any row per symbol). -/
structure ExtDB where
  ledger : List LedgerRow
  financials : List FinRow
  valuations : List String
  indicators : List String
  deriving Repr, DecidableEq

/-- The annual report date string `f"{target_date.year}-12-31"`
(manager.py:508). -/
def reportDateOf (year : Nat) : String := toString year ++ "-12-31"

/-- `SyncManager._get_extended_data_symbols_to_process`
(manager.py:451-594). Step 1 deletes every `pending` ledger row for the
target date — the SQL at lines 470-476 carries no age condition. Step 2
collects the symbols holding a `completed` row for the target date. An
empty symbol list yields no work. Otherwise the three presence sets are
computed (a financials row for the target year's annual report created
within 30 days; any valuations row; any technical-indicators row) and a
symbol is returned when it is not ledger-completed and lacks at least
one of the three. Returns the store state after the delete together
with the planned subset. -/
def getExtendedDataSymbolsToProcess (db : ExtDB) (symbols : List String)
    (targetDate : String) (targetYear : Nat) : ExtDB × List String :=
  let ledger2 := db.ledger.filter
    (fun r => decide (¬(r.target_date = targetDate ∧ r.status = "pending")))
  let db2 : ExtDB := { db with ledger := ledger2 }
  let completedSymbols := (ledger2.filter
    (fun r => decide (r.target_date = targetDate ∧
      r.status = "completed"))).map LedgerRow.symbol
  if symbols.isEmpty then (db2, [])
  else
    let reportDate := reportDateOf targetYear
    let financialSymbols := (db.financials.filter
      (fun f => decide (f.symbol ∈ symbols ∧ f.report_date = reportDate ∧
        f.ageDays < 30))).map FinRow.symbol
    let valuationSymbols := db.valuations.filter (fun s => decide (s ∈ symbols))
    let indicatorSymbols := db.indicators.filter (fun s => decide (s ∈ symbols))
    let symbolsNeedingProcessing := symbols.filter (fun sym =>
      decide (¬ sym ∈ completedSymbols ∧
        (¬ sym ∈ financialSymbols ∨ ¬ sym ∈ valuationSymbols ∨
          ¬ sym ∈ indicatorSymbols)))
    (db2, symbolsNeedingProcessing)

/-- A `completed` ledger row for this symbol and exact target date. -/
def completedLedger (db : ExtDB) (targetDate : String) (sym : String) : Prop :=
  ∃ r ∈ db.ledger, r.symbol = sym ∧ r.target_date = targetDate ∧
    r.status = "completed"

/-- A financials row for the target year's annual report, created within
the last 30 days. -/
def hasFreshAnnualFinancial (db : ExtDB) (targetYear : Nat) (sym : String) : Prop :=
  ∃ f ∈ db.financials, f.symbol = sym ∧
    f.report_date = reportDateOf targetYear ∧ f.ageDays < 30

/-- A `pending` ledger row aged well under one day (12 hours old). -/
def c1row : LedgerRow :=
  { symbol := "000006.SZ", sync_type := "processing",
    target_date := "2025-01-24", status := "pending", ageDays := 0 }

def c1db : ExtDB :=
  { ledger := [c1row], financials := [], valuations := [], indicators := [] }

/-- Claim C1 (code bug): the cleanup at manager.py:470-476 deletes every
`pending` row for the target date regardless of age. A pending row aged
under one day is deleted — contradicting the staleness rule and the
repository's own test `test_keep_recent_pending_status` — while its
symbol is still included in the returned subset. -/
theorem pending_cleanup_ignores_age :
    (getExtendedDataSymbolsToProcess c1db ["000006.SZ"] "2025-01-24" 2025).1.ledger
        = [] ∧
    (getExtendedDataSymbolsToProcess c1db ["000006.SZ"] "2025-01-24" 2025).2
        = ["000006.SZ"] := by
  exact ⟨by decide, by decide⟩

def mkCompletedRow (s : String) : LedgerRow :=
  { symbol := s, sync_type := "processing", target_date := "2025-01-24",
    status := "completed", ageDays := 5 }

/-- Five symbols; the first three are ledger-completed with all three
extended-data tables populated. -/
def c4db : ExtDB :=
  { ledger := [mkCompletedRow "000001.SZ", mkCompletedRow "000002.SZ",
      mkCompletedRow "000003.SZ"]
    financials := [⟨"000001.SZ", "2025-12-31", 1⟩, ⟨"000002.SZ", "2025-12-31", 1⟩,
      ⟨"000003.SZ", "2025-12-31", 1⟩]
    valuations := ["000001.SZ", "000002.SZ", "000003.SZ"]
    indicators := ["000001.SZ", "000002.SZ", "000003.SZ"] }

def c4symbols : List String :=
  ["000001.SZ", "000002.SZ", "000003.SZ", "000004.SZ", "000005.SZ"]

/-- The claimed presence predicate for the financials kind, following
the claim's words ("financial statements for the relevant fiscal
year"): an annual financials row for the target year, with no freshness
condition. To be compared with the code's `hasFreshAnnualFinancial`,
which additionally requires `created_at` within the last 30 days. -/
def hasAnnualFinancialClaimed (db : ExtDB) (targetYear : Nat) (sym : String) :
    Prop :=
  ∃ f ∈ db.financials, f.symbol = sym ∧ f.report_date = reportDateOf targetYear

/-- A symbol with no ledger row, a 45-day-old annual financials row, and
populated valuations and indicators. -/
def c4staleDb : ExtDB :=
  { ledger := []
    financials := [⟨"000009.SZ", "2025-12-31", 45⟩]
    valuations := ["000009.SZ"]
    indicators := ["000009.SZ"] }

/-- Counterexample for C4 as stated: under the claim's reading of the
financials kind (an annual report row for the fiscal year, with no
freshness condition), the symbol lacks none of the three kinds and has
no `completed` ledger row, so the claimed biconditional says it is not
returned — yet the planning pass returns it, because the code
(manager.py:513) also requires the financials row to be created within
30 days and this one is 45 days old. -/
theorem extended_planning_membership_counterexample :
    ¬ ("000009.SZ" ∈ (getExtendedDataSymbolsToProcess c4staleDb
          ["000009.SZ"] "2025-01-24" 2025).2 ↔
        ("000009.SZ" ∈ ["000009.SZ"] ∧
          ¬ completedLedger c4staleDb "2025-01-24" "000009.SZ" ∧
          (¬ hasAnnualFinancialClaimed c4staleDb 2025 "000009.SZ" ∨
            ¬ "000009.SZ" ∈ c4staleDb.valuations ∨
            ¬ "000009.SZ" ∈ c4staleDb.indicators))) := by
  unfold completedLedger hasAnnualFinancialClaimed
  decide

/-- Claim C4 (amended): the planning pass returns a symbol exactly when
it has no `completed` ledger row for the exact target date and lacks at
least one of the three extended-data kinds, where the financials kind
counts as present only when the target year's annual report row was
created within the last 30 days (any valuation row and any
technical-indicator row suffice for the other two); for five symbols of
which three are completed with all tables populated (financials fresh),
exactly the other two are returned. -/
theorem extended_planning_membership :
    (∀ (db : ExtDB) (symbols : List String) (targetDate : String)
        (targetYear : Nat) (sym : String),
      sym ∈ (getExtendedDataSymbolsToProcess db symbols targetDate targetYear).2 ↔
        (sym ∈ symbols ∧ ¬ completedLedger db targetDate sym ∧
          (¬ hasFreshAnnualFinancial db targetYear sym ∨
            ¬ sym ∈ db.valuations ∨ ¬ sym ∈ db.indicators))) ∧
    (getExtendedDataSymbolsToProcess c4db c4symbols "2025-01-24" 2025).2 =
      ["000004.SZ", "000005.SZ"] := by
  constructor
  · intro db symbols targetDate targetYear sym
    simp only [getExtendedDataSymbolsToProcess]
    by_cases hs : symbols.isEmpty = true
    · rw [if_pos hs]
      have hnil : symbols = [] := by
        cases symbols with
        | nil => rfl
        | cons a l => simp [List.isEmpty] at hs
      subst hnil
      simp
    · rw [if_neg hs]
      rw [List.mem_filter]
      simp only [decide_eq_true_eq]
      apply and_congr_right
      intro hsym
      have hcomp : (sym ∈ ((db.ledger.filter (fun r =>
            decide (¬(r.target_date = targetDate ∧ r.status = "pending")))).filter
            (fun r => decide (r.target_date = targetDate ∧
              r.status = "completed"))).map LedgerRow.symbol) ↔
          completedLedger db targetDate sym := by
        simp only [List.mem_map, List.mem_filter, decide_eq_true_eq, completedLedger]
        constructor
        · rintro ⟨r, ⟨⟨hrl, _⟩, htd, hst⟩, hsy⟩
          exact ⟨r, hrl, hsy, htd, hst⟩
        · rintro ⟨r, hrl, hsy, htd, hst⟩
          refine ⟨r, ⟨⟨hrl, ?_⟩, htd, hst⟩, hsy⟩
          rintro ⟨-, hpend⟩
          rw [hst] at hpend
          exact absurd hpend (by decide)
      have hfin : (sym ∈ (db.financials.filter (fun f =>
            decide (f.symbol ∈ symbols ∧ f.report_date = reportDateOf targetYear ∧
              f.ageDays < 30))).map FinRow.symbol) ↔
          hasFreshAnnualFinancial db targetYear sym := by
        simp only [List.mem_map, List.mem_filter, decide_eq_true_eq,
          hasFreshAnnualFinancial]
        constructor
        · rintro ⟨f, ⟨hfl, _, hrd, hage⟩, hsy⟩
          exact ⟨f, hfl, hsy, hrd, hage⟩
        · rintro ⟨f, hfl, hsy, hrd, hage⟩
          exact ⟨f, ⟨hfl, hsy ▸ hsym, hrd, hage⟩, hsy⟩
      have hval : (sym ∈ db.valuations.filter (fun s => decide (s ∈ symbols))) ↔
          sym ∈ db.valuations := by
        rw [List.mem_filter]
        simp only [decide_eq_true_eq]
        exact ⟨fun h => h.1, fun h => ⟨h, hsym⟩⟩
      have hind : (sym ∈ db.indicators.filter (fun s => decide (s ∈ symbols))) ↔
          sym ∈ db.indicators := by
        rw [List.mem_filter]
        simp only [decide_eq_true_eq]
        exact ⟨fun h => h.1, fun h => ⟨h, hsym⟩⟩
      exact and_congr (not_congr hcomp)
        (or_congr (not_congr hfin) (or_congr (not_congr hval) (not_congr hind)))
  · decide

/-- Witness for C4 at the five-symbol scenario. -/
theorem extended_planning_membership_witness :
    (getExtendedDataSymbolsToProcess c4db c4symbols "2025-01-24" 2025).2 =
      ["000004.SZ", "000005.SZ"] :=
  extended_planning_membership.2

/-- Dates encoded as `year*10000 + month*100 + day`, so that Python
`date` comparison (lexicographic on year, month, day) is numeric
comparison. -/
def dateNum (y m d : Nat) : Nat := y * 10000 + m * 100 + d

/-- The fixed fallback `date(2025, 1, 24)` of manager.py:119. -/
def clampDate : Nat := dateNum 2025 1 24

/-- Target-date resolution prologue of `SyncManager.run_full_sync`
(manager.py:109-120): a missing (`None`, hence falsy) target date raises
`ValidationError`, surfaced to the caller by `unified_error_handler` as
an error result; a target date strictly after today is replaced by the
fixed historical date 2025-01-24. -/
def runFullSyncTargetDate (targetDate : Option Nat) (today : Nat) :
    Except String Nat :=
  match targetDate with
  | none => .error "target date must not be empty"
  | some d => .ok (if today < d then clampDate else d)

/-- Claim C6: a null target date is rejected as a configuration error,
never defaulted; any target date strictly after today is not an error
and the effective processed date is the known historical date
2025-01-24, different from the requested future date. -/
theorem run_full_sync_date_guard (today : Nat) (hclamp : clampDate ≤ today) :
    runFullSyncTargetDate none today = .error "target date must not be empty" ∧
    (∀ d : Nat, today < d →
      runFullSyncTargetDate (some d) today = .ok clampDate ∧ clampDate ≠ d ∧
        clampDate ≤ today) := by
  refine ⟨rfl, fun d hd => ⟨?_, ?_, hclamp⟩⟩
  · simp [runFullSyncTargetDate, hd]
  · omega

/-- Witness for C6: requesting 2027-01-01 on 2026-10-12 yields the
historical clamp date. -/
theorem run_full_sync_date_guard_witness :
    runFullSyncTargetDate (some (dateNum 2027 1 1)) (dateNum 2026 10 12) =
      .ok clampDate :=
  ((run_full_sync_date_guard (dateNum 2026 10 12) (by decide)).2
    (dateNum 2027 1 1) (by decide)).1

/-! ## Data validator (`simtradedata/sync/validator.py`) -/

/-- `float(value)`: succeeds on numbers, raises (`none`) on non-numeric
text and on `None`. -/
def toFloat : Val → Option Rat
  | .int n => some (n : Rat)
  | .num q => some q
  | .str _ => none
  | .null => none

/-- One structured issue appended by `_validate_record`. The free-text
`description` (pure presentation) is not modelled. -/
structure Issue where
  issue_type : String
  field : Option String
  trade_date : Val
  deriving Repr, DecidableEq

/-- `record.get("trade_date", "")`. -/
def tradeDateOf (r : Record) : Val := (lookupCol r "trade_date").getD (.str "")

/-- `field in record and record[field] is not None`. -/
def fieldPresent (r : Record) (f : String) : Bool :=
  match lookupCol r f with
  | some v => decide (v ≠ .null)
  | none => false

/-- Check 1 of `_validate_record` (validator.py:265-284): a
`missing_field` issue for every required field that is absent or null. -/
def missingFieldIssues (r : Record) : List Issue :=
  (["symbol", "trade_date", "open", "high", "low", "close", "volume"]).filterMap
    (fun f =>
      if fieldPresent r f then none
      else some { issue_type := "missing_field", field := some f,
                  trade_date := tradeDateOf r })

/-- The issue appended by the `except` at validator.py:391-398 when a
record's checks raise. -/
def validationErrorIssue (r : Record) : Issue :=
  { issue_type := "validation_error", field := none, trade_date := tradeDateOf r }

/-- The validator's configuration values (validator.py:34-40). -/
structure VConfig where
  min_data_quality : Rat
  max_price_change_pct : Rat
  min_volume_threshold : Rat
  deriving Repr, DecidableEq

/-- Check 2 (validator.py:286-337): price positivity, high/low ordering,
open/close range; `.error` models a `float()` conversion raising. -/
def priceLogicIssues (r : Record) : Except Unit (List Issue) :=
  if (["open", "high", "low", "close"]).all (fieldPresent r) then
    match toFloat ((lookupCol r "open").getD .null),
        toFloat ((lookupCol r "high").getD .null),
        toFloat ((lookupCol r "low").getD .null),
        toFloat ((lookupCol r "close").getD .null) with
    | some o, some h, some l, some c =>
      .ok ((if o ≤ 0 ∨ h ≤ 0 ∨ l ≤ 0 ∨ c ≤ 0 then
              [{ issue_type := "invalid_price", field := none,
                 trade_date := tradeDateOf r }] else []) ++
           (if h < l then
              [{ issue_type := "price_logic_error", field := none,
                 trade_date := tradeDateOf r }] else []) ++
           (if ¬(l ≤ o ∧ o ≤ h) then
              [{ issue_type := "price_logic_error", field := none,
                 trade_date := tradeDateOf r }] else []) ++
           (if ¬(l ≤ c ∧ c ≤ h) then
              [{ issue_type := "price_logic_error", field := none,
                 trade_date := tradeDateOf r }] else []))
    | _, _, _, _ => .error ()
  else .ok []

/-- Check 3 (validator.py:339-357): negative volume is `invalid_volume`,
below-threshold volume is `low_volume`. -/
def volumeIssues (cfg : VConfig) (r : Record) : Except Unit (List Issue) :=
  if fieldPresent r "volume" then
    match toFloat ((lookupCol r "volume").getD .null) with
    | some v =>
      .ok (if v < 0 then
            [{ issue_type := "invalid_volume", field := none,
               trade_date := tradeDateOf r }]
          else if v < cfg.min_volume_threshold then
            [{ issue_type := "low_volume", field := none,
               trade_date := tradeDateOf r }]
          else [])
    | none => .error ()
  else .ok []

/-- Check 4 (validator.py:359-369): `low_quality` below the configured
minimum quality score. -/
def qualityIssues (cfg : VConfig) (r : Record) : Except Unit (List Issue) :=
  if fieldPresent r "quality_score" then
    match toFloat ((lookupCol r "quality_score").getD .null) with
    | some q =>
      .ok (if q < cfg.min_data_quality then
            [{ issue_type := "low_quality", field := none,
               trade_date := tradeDateOf r }]
          else [])
    | none => .error ()
  else .ok []

/-- Check 5 (validator.py:371-389): `extreme_change` when the absolute
percent change from `preclose` exceeds the configured ceiling. -/
def changeIssues (cfg : VConfig) (r : Record) : Except Unit (List Issue) :=
  if fieldPresent r "close" && fieldPresent r "preclose" then
    match toFloat ((lookupCol r "close").getD .null),
        toFloat ((lookupCol r "preclose").getD .null) with
    | some c, some pre =>
      .ok (if 0 < pre then
            (if cfg.max_price_change_pct < |((c - pre) / pre * 100)| then
              [{ issue_type := "extreme_change", field := none,
                 trade_date := tradeDateOf r }]
            else [])
          else [])
    | _, _ => .error ()
  else .ok []

/-- `DataValidator._validate_record` (validator.py:258-400): the checks
run in order accumulating issues; any exception aborts the remaining
checks and appends a single `validation_error` issue to the issues
gathered so far. -/
def validateRecord (cfg : VConfig) (r : Record) : List Issue :=
  let i1 := missingFieldIssues r
  match priceLogicIssues r with
  | .error _ => i1 ++ [validationErrorIssue r]
  | .ok i2 =>
    match volumeIssues cfg r with
    | .error _ => i1 ++ i2 ++ [validationErrorIssue r]
    | .ok i3 =>
      match qualityIssues cfg r with
      | .error _ => i1 ++ i2 ++ i3 ++ [validationErrorIssue r]
      | .ok i4 =>
        match changeIssues cfg r with
        | .error _ => i1 ++ i2 ++ i3 ++ i4 ++ [validationErrorIssue r]
        | .ok i5 => i1 ++ i2 ++ i3 ++ i4 ++ i5

/-- The per-symbol result aggregate of `validate_symbol_data`
(validator.py:157-196). -/
structure ValidationResult where
  total_records : Nat
  valid_records : Nat
  invalid_records : Nat
  issues : List Issue
  deriving Repr, DecidableEq

/-- The loop body of `DataValidator.validate_symbol_data`
(validator.py:179-186): a record with issues increments
`invalid_records` and extends the issue list, an issue-free record
increments `valid_records`. -/
def validateStep (cfg : VConfig) (acc : ValidationResult) (r : Record) :
    ValidationResult :=
  let issues := validateRecord cfg r
  if issues.isEmpty then
    { acc with valid_records := acc.valid_records + 1 }
  else
    { acc with invalid_records := acc.invalid_records + 1,
               issues := acc.issues ++ issues }

/-- The per-record tally of `DataValidator.validate_symbol_data`
(validator.py:157-196) over the records fetched for the symbol:
`total_records` is the fetch count, then the loop body runs per
record. -/
def validateSymbolData (cfg : VConfig) (records : List Record) :
    ValidationResult :=
  records.foldl (validateStep cfg)
    { total_records := records.length, valid_records := 0,
      invalid_records := 0, issues := [] }

lemma length_filter_add_length_filter_not {α : Type} (p : α → Bool) (l : List α) :
    (l.filter p).length + (l.filter (fun a => !(p a))).length = l.length := by
  induction l with
  | nil => rfl
  | cons a l ih =>
    by_cases h : p a <;> simp [List.filter_cons, h] <;> omega

lemma validateStep_pos (cfg : VConfig) (acc : ValidationResult) (r : Record)
    (h : (validateRecord cfg r).isEmpty = true) :
    validateStep cfg acc r = { acc with valid_records := acc.valid_records + 1 } := by
  simp [validateStep, h]

lemma validateStep_neg (cfg : VConfig) (acc : ValidationResult) (r : Record)
    (h : ¬(validateRecord cfg r).isEmpty = true) :
    validateStep cfg acc r =
      { acc with invalid_records := acc.invalid_records + 1,
                 issues := acc.issues ++ validateRecord cfg r } := by
  simp only [validateStep]
  rw [if_neg h]

/-- The tally loop, from any accumulator: the total is untouched and
valid/invalid grow by the number of issue-free / issue-bearing
records. -/
lemma validate_fold_counts (cfg : VConfig) (records : List Record)
    (init : ValidationResult) :
    (records.foldl (validateStep cfg) init).total_records =
      init.total_records ∧
    (records.foldl (validateStep cfg) init).valid_records =
      init.valid_records +
        (records.filter (fun r => (validateRecord cfg r).isEmpty)).length ∧
    (records.foldl (validateStep cfg) init).invalid_records =
      init.invalid_records +
        (records.filter (fun r => !(validateRecord cfg r).isEmpty)).length := by
  induction records generalizing init with
  | nil => simp
  | cons r rs ih =>
    rw [List.foldl_cons]
    by_cases h : (validateRecord cfg r).isEmpty = true
    · rw [validateStep_pos cfg init r h]
      obtain ⟨ih1, ih2, ih3⟩ :=
        ih { init with valid_records := init.valid_records + 1 }
      refine ⟨ih1, ?_, ?_⟩
      · rw [ih2]
        simp [List.filter_cons, h]
        omega
      · rw [ih3]
        simp [List.filter_cons, h]
    · rw [validateStep_neg cfg init r h]
      obtain ⟨ih1, ih2, ih3⟩ :=
        ih { init with invalid_records := init.invalid_records + 1,
                       issues := init.issues ++ validateRecord cfg r }
      refine ⟨ih1, ?_, ?_⟩
      · rw [ih2]
        simp [List.filter_cons, h]
      · rw [ih3]
        simp [List.filter_cons, h]
        omega

/-- A record whose prices are all present but whose `open` is
non-numeric text: the `float()` call raises mid-checks. -/
def c9bad : Record :=
  [("symbol", .str "000001.SZ"), ("trade_date", .str "2025-01-24"),
   ("open", .str "bad"), ("high", .int 10), ("low", .int 9),
   ("close", .int 10), ("volume", .int 1000)]

/-- Claim C9: `validate_symbol_data` never raises — the embedding is a
total function, and an exception inside one record's checks becomes a
`validation_error` issue on that record — and every fetched record is
counted exactly once as valid (no issues) or invalid (some issue), so
`total_records = valid_records + invalid_records`. -/
theorem validator_totals_partition (cfg : VConfig) (records : List Record) :
    (validateSymbolData cfg records).total_records = records.length ∧
    (validateSymbolData cfg records).valid_records =
      (records.filter (fun r => (validateRecord cfg r).isEmpty)).length ∧
    (validateSymbolData cfg records).invalid_records =
      (records.filter (fun r => !(validateRecord cfg r).isEmpty)).length ∧
    (validateSymbolData cfg records).total_records =
      (validateSymbolData cfg records).valid_records +
        (validateSymbolData cfg records).invalid_records ∧
    (∀ r : Record, priceLogicIssues r = .error () →
      validateRecord cfg r = missingFieldIssues r ++ [validationErrorIssue r]) ∧
    validateRecord cfg c9bad = [validationErrorIssue c9bad] := by
  obtain ⟨h1, h2, h3⟩ := validate_fold_counts cfg records
    { total_records := records.length, valid_records := 0,
      invalid_records := 0, issues := [] }
  have hconv : ∀ r : Record, priceLogicIssues r = .error () →
      validateRecord cfg r = missingFieldIssues r ++ [validationErrorIssue r] := by
    intro r hr
    simp [validateRecord, hr]
  refine ⟨h1, by simpa using h2, by simpa using h3, ?_, hconv, ?_⟩
  · rw [show validateSymbolData cfg records = records.foldl (validateStep cfg)
        { total_records := records.length, valid_records := 0,
          invalid_records := 0, issues := [] } from rfl]
    rw [h1, h2, h3]
    simpa using
      (length_filter_add_length_filter_not
        (fun r => (validateRecord cfg r).isEmpty) records).symm
  · have hbad : priceLogicIssues c9bad = .error () := rfl
    rw [hconv c9bad hbad]
    have hmf : missingFieldIssues c9bad = [] := by decide
    rw [hmf]
    rfl

/-- Witness for C9 at a concrete configuration: the non-numeric record
yields exactly one `validation_error` issue. -/
theorem validator_totals_partition_witness :
    validateRecord ({ min_data_quality := 60
                      max_price_change_pct := 20
                      min_volume_threshold := 100 } : VConfig) c9bad =
      [validationErrorIssue c9bad] :=
  (validator_totals_partition
    ({ min_data_quality := 60
       max_price_change_pct := 20
       min_volume_threshold := 100 } : VConfig) []).2.2.2.2.2

end SimTradeData
